import Mathlib

/-!
Verification of the real-time subtitle pipeline (`app.py`).

Shallow embedding of the `Segmenter` state machine, the `STTWorker` loop,
the bounded (non-blocking) queues and the `SRTWriter`, with theorems about
segmentation, error handling and timestamp formatting.  Timestamps
(`time.time()` values, seconds) are modelled as rationals; PCM payloads are
modelled abstractly by an index, and the VAD classifier by a function from
payloads to `Bool`.
-/

namespace RealtimeSubtitle

/-- A timestamped audio frame as popped from the capture queue: the tuple
`(ts, pcm)` pushed by `RealTimeCapturer._callback`. -/
structure Frame where
  ts : ℚ
  pcm : ℕ
deriving DecidableEq

/-- `AudioSegment` from `app.py`: start/end times and the PCM chunks
appended while the segment was open.  Each stored chunk is represented by
the whole classified frame (payload plus its capture timestamp), which the
code has in scope at every `append` call site. -/
structure AudioSegment where
  start_time : ℚ
  end_time : Option ℚ := none
  samples : List Frame := []
deriving DecidableEq

/-- The segmenter parameters from `Segmenter.__init__`: the capturer's
`block_duration_ms` plus `min_speech_ms`, `max_silence_ms`,
`segment_timeout_s`, and the capacity of the outgoing segment queue. -/
structure SegConfig where
  block_duration_ms : ℕ
  min_speech_ms : ℕ
  max_silence_ms : ℕ
  segment_timeout_s : ℚ
  out_capacity : ℕ
deriving DecidableEq

/-- `self.min_frames = max(1, int(math.ceil(min_speech_ms / block_duration_ms)))`
(ceiling division on naturals). -/
def SegConfig.min_frames (c : SegConfig) : ℕ :=
  max 1 ((c.min_speech_ms + c.block_duration_ms - 1) / c.block_duration_ms)

/-- `self.max_silence_frames = max(1, int(math.ceil(max_silence_ms / block_duration_ms)))`. -/
def SegConfig.max_silence_frames (c : SegConfig) : ℕ :=
  max 1 ((c.max_silence_ms + c.block_duration_ms - 1) / c.block_duration_ms)

/-- Python `a or b` for an optional float `a`: `b` when `a` is `None` or
`0.0` (both falsy), else the value of `a`. -/
def pyOr (a : Option ℚ) (b : ℚ) : ℚ :=
  match a with
  | none => b
  | some x => if x = 0 then b else x

/-- `q.put_nowait x` on a `queue.Queue(maxsize := cap)` wrapped in
`except queue.Full: logging.warning(...)`: returns the new queue contents
and whether the queue-full warning fired (the item was dropped). -/
def putNowait {α : Type} (cap : ℕ) (q : List α) (x : α) : List α × Bool :=
  if q.length < cap then (q ++ [x], false) else (q, true)

/-- The tail of `RealTimeCapturer._callback`: non-blocking push of the
timestamped frame onto the frame queue (`maxsize=100` in the code),
dropping it with a warning when the queue is full. -/
def callbackPush (cap : ℕ) (q : List Frame) (f : Frame) : List Frame × Bool :=
  putNowait cap q f

/-- The loop state of `Segmenter.run`, plus two observation fields:
`pushed` records every segment handed to `out_queue.put_nowait` (an
emission in the spec's sense, whether or not the queue had room), and
`warnings` counts queue-full warnings. -/
structure SegState where
  cur : Option AudioSegment
  speech_frame_count : ℕ
  silence_frame_count : ℕ
  last_activity : Option ℚ
  out_queue : List AudioSegment
  pushed : List AudioSegment
  warnings : ℕ
deriving DecidableEq

/-- The state at `Segmenter.run` entry: no open segment, zero counters,
empty outgoing queue. -/
def initSegState : SegState :=
  { cur := none
    speech_frame_count := 0
    silence_frame_count := 0
    last_activity := none
    out_queue := []
    pushed := []
    warnings := 0 }

/-- The updated `silence_frame_count` after classifying frame `f`:
reset to `0` on speech, incremented on silence. -/
def newSilenceCount (vad : ℕ → Bool) (st : SegState) (f : Frame) : ℕ :=
  if vad f.pcm then 0 else st.silence_frame_count + 1

/-- The updated `last_activity` after classifying frame `f`. -/
def newLastActivity (vad : ℕ → Bool) (st : SegState) (f : Frame) : Option ℚ :=
  if vad f.pcm then some f.ts else st.last_activity

/-- The silence-run end-of-segment condition of `Segmenter.run`: a segment
is open and the updated silence counter has reached `max_silence_frames`. -/
def silenceEndCond (c : SegConfig) (vad : ℕ → Bool) (st : SegState) (f : Frame) : Bool :=
  st.cur.isSome && decide (c.max_silence_frames ≤ newSilenceCount vad st f)

/-- The `end_time` a silence-ended segment receives:
`last_activity or ts` after the classification update. -/
def silenceEndTime (vad : ℕ → Bool) (st : SegState) (f : Frame) : ℚ :=
  pyOr (newLastActivity vad st f) f.ts

/-- The `duration_ms` computed when the silence-run condition fires:
`(end_time - start_time) * 1000` for the open segment (0 when idle). -/
def silenceSpanMs (vad : ℕ → Bool) (st : SegState) (f : Frame) : ℚ :=
  match st.cur with
  | none => 0
  | some seg => (silenceEndTime vad st f - seg.start_time) * 1000

/-- One iteration of the `Segmenter.run` loop body on a frame popped from
the capture queue; `vad f.pcm` is `self.capturer.vad.is_speech(...)`. -/
def segStep (c : SegConfig) (vad : ℕ → Bool) (st : SegState) (f : Frame) : SegState :=
  match st.cur with
  | none =>
    if vad f.pcm then
      { st with
        cur := some { start_time := f.ts, end_time := none, samples := [f] }
        speech_frame_count := 1
        silence_frame_count := 0
        last_activity := some f.ts }
    else
      st
  | some seg0 =>
    let seg : AudioSegment := { seg0 with samples := seg0.samples ++ [f] }
    let spCount : ℕ :=
      if vad f.pcm then st.speech_frame_count + 1 else st.speech_frame_count
    let silCount : ℕ := newSilenceCount vad st f
    let la : Option ℚ := newLastActivity vad st f
    if c.max_silence_frames ≤ silCount then
      let done : AudioSegment := { seg with end_time := some (pyOr la f.ts) }
      if ((c.min_frames * c.block_duration_ms : ℕ) : ℚ) ≤ (pyOr la f.ts - seg.start_time) * 1000 then
        let pq := putNowait c.out_capacity st.out_queue done
        { cur := none
          speech_frame_count := 0
          silence_frame_count := 0
          last_activity := none
          out_queue := pq.1
          pushed := st.pushed ++ [done]
          warnings := st.warnings + if pq.2 then 1 else 0 }
      else
        { cur := none
          speech_frame_count := 0
          silence_frame_count := 0
          last_activity := none
          out_queue := st.out_queue
          pushed := st.pushed
          warnings := st.warnings }
    else
      if c.segment_timeout_s < f.ts - seg.start_time then
        let done : AudioSegment := { seg with end_time := some f.ts }
        let pq := putNowait c.out_capacity st.out_queue done
        { cur := none
          speech_frame_count := 0
          silence_frame_count := 0
          last_activity := none
          out_queue := pq.1
          pushed := st.pushed ++ [done]
          warnings := st.warnings + if pq.2 then 1 else 0 }
      else
        { st with
          cur := some seg
          speech_frame_count := spCount
          silence_frame_count := silCount
          last_activity := la }

/-- Run the segmenter loop over a finite stream of classified frames, in
arrival order, from the initial state. -/
def segRun (c : SegConfig) (vad : ℕ → Bool) (frames : List Frame) : SegState :=
  frames.foldl (segStep c vad) initSegState

/-- Length of the run of consecutive silence-classified frames at the end
of a stream (the frames since the last speech frame). -/
def trailingSilence (vad : ℕ → Bool) (frames : List Frame) : ℕ :=
  frames.foldl (fun n f => if vad f.pcm then 0 else n + 1) 0

/-- The default configuration of `app.py`'s `CONFIG` table:
`block_duration = 30`, `min_speech_ms = 250`, `max_silence_ms = 700`,
`segment_timeout_s = 10`, segment queue `maxsize = 50`. -/
def defaultCfg : SegConfig :=
  { block_duration_ms := 30
    min_speech_ms := 250
    max_silence_ms := 700
    segment_timeout_s := 10
    out_capacity := 50 }

/-- A concrete VAD classifier for test streams: payload `0` is silence,
anything else speech. -/
def vadNonzero : ℕ → Bool := fun p =>
  match p with
  | 0 => false
  | _ + 1 => true

/-- Claim C1 as the specification states it, over a segmenter
configuration and classifier: whenever the silence-run condition ends a
segment, the segment is emitted (handed to `put_nowait`) if and only if
its span in milliseconds is at least `min_speech_ms`. -/
def emitsIffAtLeastMinSpeechMs (c : SegConfig) (vad : ℕ → Bool) : Prop :=
  ∀ frames f,
    silenceEndCond c vad (segRun c vad frames) f = true →
    ((segRun c vad (frames ++ [f])).pushed.length = (segRun c vad frames).pushed.length + 1 ↔
      (c.min_speech_ms : ℚ) ≤ silenceSpanMs vad (segRun c vad frames) f)

/-- The observable effects of one `STTWorker`: the per-worker SRT sequence
counter `seq`, the subtitle entries written (index, start, end, text), and
the captions sent through `ui_callback`. -/
structure WorkerState where
  seq : ℕ
  entries : List (ℕ × ℚ × ℚ × String)
  captions : List String
deriving DecidableEq

/-- Worker state at thread start: `self.seq = 1`, nothing written. -/
def initWorkerState : WorkerState := { seq := 1, entries := [], captions := [] }

/-- One iteration of `STTWorker.run` on a popped segment.  The backend
call either raises (`Except.error`) or returns `(text, conf)`; an
exception is logged and replaced by `("", 0.0)`.  On nonempty text the
caption is sent, the SRT entry `(seq, start, end or start, text)` is
written and `seq` is incremented; empty results are ignored. -/
def workerStep (backend : List Frame → Except Unit (String × ℚ))
    (st : WorkerState) (seg : AudioSegment) : WorkerState :=
  let r : String × ℚ :=
    match backend seg.samples with
    | Except.error _ => ("", 0)
    | Except.ok tc => tc
  if r.1 = "" then
    st
  else
    { seq := st.seq + 1
      entries := st.entries ++ [(st.seq, seg.start_time, pyOr seg.end_time seg.start_time, r.1)]
      captions := st.captions ++ [r.1] }

/-- The worker loop over a finite stream of popped segments. -/
def workerRun (backend : List Frame → Except Unit (String × ℚ))
    (segs : List AudioSegment) : WorkerState :=
  segs.foldl (workerStep backend) initWorkerState

/-- Python `int()` on a float: truncation toward zero. -/
def pyInt (q : ℚ) : ℤ := if 0 ≤ q then ⌊q⌋ else ⌈q⌉

/-- Decimal rendering of `n` left-padded with `'0'` to width `w`
(Python `f"{n:0Nd}"` for nonnegative `n`). -/
def zpad (w : ℕ) (n : ℤ) : String :=
  let s := toString n
  if s.length < w then String.mk (List.replicate (w - s.length) '0') ++ s else s

/-- `SRTWriter._format_timestamp`: `total_ms = int(ts * 1000)`, then
`HH:MM:SS,mmm` with `%` and `//` as in Python (Euclidean for these
positive divisors) and the hour field reduced mod 100. -/
def formatTimestamp (ts : ℚ) : String :=
  let total_ms : ℤ := pyInt (ts * 1000)
  let ms : ℤ := total_ms % 1000
  let s : ℤ := (total_ms / 1000) % 60
  let m : ℤ := (total_ms / (1000 * 60)) % 60
  let h : ℤ := (total_ms / (1000 * 60 * 60)) % 100
  zpad 2 h ++ ":" ++ zpad 2 m ++ ":" ++ zpad 2 s ++ "," ++ zpad 3 ms

/-- The timestamp format exactly as the specification words it:
`HH:MM:SS,mmm` with `mmm = ⌊ts*1000⌋ mod 1000`, `SS = ⌊ts⌋ mod 60`,
`MM = ⌊ts/60⌋ mod 60`, `HH = ⌊ts/3600⌋ mod 100`, zero-padded to 3, 2, 2,
2 digits respectively. -/
def specTimestamp (ts : ℚ) : String :=
  zpad 2 (⌊ts / 3600⌋ % 100) ++ ":" ++ zpad 2 (⌊ts / 60⌋ % 60) ++ ":" ++
    zpad 2 (⌊ts⌋ % 60) ++ "," ++ zpad 3 (⌊ts * 1000⌋ % 1000)

/-- `SRTWriter.__init__`: the file at the given path is opened with mode
`"w"` (truncate on open) and the empty string written, so whatever content
the file held before, it holds `""` afterwards. -/
def srtInitContent (prior : String) : String :=
  let _ := prior
  ""

/-- One SRT block as `SRTWriter.write_entry` renders it. -/
def srtBlock (idx : ℕ) (start_ts end_ts : ℚ) (text : String) : String :=
  toString idx ++ "\n" ++ formatTimestamp start_ts ++ " --> " ++
    formatTimestamp end_ts ++ "\n" ++ text ++ "\n\n"

/-- `SRTWriter.write_entry`: open in append mode and write the block after
the current content. -/
def write_entry (content : String) (idx : ℕ) (start_ts end_ts : ℚ) (text : String) : String :=
  content ++ srtBlock idx start_ts end_ts text

/-- A well-formed emitted segment: non-empty frame list, and an assigned
`end_time` not before `start_time`. -/
def GoodSeg (s : AudioSegment) : Prop :=
  s.samples ≠ [] ∧ ∃ e, s.end_time = some e ∧ s.start_time ≤ e

/-- Frames in nondecreasing timestamp order. -/
def tsMono (frames : List Frame) : Prop :=
  frames.Pairwise (fun a b => a.ts ≤ b.ts)

/-- Invariant of the segmenter loop that needs no ordering assumption on
the frame stream: while a segment is open, the silence counter equals the
trailing silence run of the stream and stays below `max_silence_frames`,
the open segment has no `end_time` yet, its first stored frame is the
speech frame that opened it, and `last_activity` and `start_time` are
timestamps of frames of the stream. -/
def InvBasic (c : SegConfig) (vad : ℕ → Bool) (frames : List Frame) (st : SegState) : Prop :=
  ∀ seg, st.cur = some seg →
    st.silence_frame_count = trailingSilence vad frames ∧
    st.silence_frame_count < c.max_silence_frames ∧
    seg.end_time = none ∧
    (∃ f0 r, seg.samples = f0 :: r ∧ vad f0.pcm = true ∧ f0.ts = seg.start_time) ∧
    (∃ la, st.last_activity = some la ∧ ∃ g ∈ frames, la = g.ts) ∧
    (∃ g ∈ frames, seg.start_time = g.ts)

/-- Invariant of the segmenter loop under nondecreasing frame timestamps:
`last_activity` never precedes the open segment's `start_time`, and every
segment handed to the outgoing queue is well-formed. -/
def InvSorted (st : SegState) : Prop :=
  (∀ seg, st.cur = some seg →
    ∃ la, st.last_activity = some la ∧ seg.start_time ≤ la) ∧
  (∀ s ∈ st.pushed, GoodSeg s)

/-- A stream refuting the spec's `min_speech_ms` threshold under the
default configuration: speech at 0 s and 0.26 s, then 23 silence frames
30 ms apart (all well under the 10 s timeout). -/
def shortSpanFrames : List Frame :=
  [{ ts := 0, pcm := 1 }, { ts := 26/100, pcm := 1 },
   { ts := 29/100, pcm := 0 }, { ts := 32/100, pcm := 0 },
   { ts := 35/100, pcm := 0 }, { ts := 38/100, pcm := 0 },
   { ts := 41/100, pcm := 0 }, { ts := 44/100, pcm := 0 },
   { ts := 47/100, pcm := 0 }, { ts := 50/100, pcm := 0 },
   { ts := 53/100, pcm := 0 }, { ts := 56/100, pcm := 0 },
   { ts := 59/100, pcm := 0 }, { ts := 62/100, pcm := 0 },
   { ts := 65/100, pcm := 0 }, { ts := 68/100, pcm := 0 },
   { ts := 71/100, pcm := 0 }, { ts := 74/100, pcm := 0 },
   { ts := 77/100, pcm := 0 }, { ts := 80/100, pcm := 0 },
   { ts := 83/100, pcm := 0 }, { ts := 86/100, pcm := 0 },
   { ts := 89/100, pcm := 0 }, { ts := 92/100, pcm := 0 },
   { ts := 95/100, pcm := 0 }]

/-- The 24th consecutive silence frame following `shortSpanFrames`. -/
def shortSpanLastFrame : Frame := { ts := 98/100, pcm := 0 }

/-- A small configuration for concrete witnesses: 30 ms frames,
`min_speech_ms = 30`, `max_silence_ms = 30` (one silence frame ends a
segment), 100 s timeout, queue capacity 8. -/
def demoCfg : SegConfig :=
  { block_duration_ms := 30
    min_speech_ms := 30
    max_silence_ms := 30
    segment_timeout_s := 100
    out_capacity := 8 }

/-- A short stream that opens a segment with speech at 1 s and 2 s. -/
def demoOpen : List Frame := [{ ts := 1, pcm := 5 }, { ts := 2, pcm := 7 }]

/-- A silence frame at 3 s closing the `demoOpen` segment. -/
def demoSilence : Frame := { ts := 3, pcm := 0 }

/-- `demoOpen` followed by its closing silence frame. -/
def demoEmit : List Frame := demoOpen ++ [demoSilence]

/-- Default-configuration stream for the 24-frame close: one speech frame
at 0 s, then 23 silence frames 0.1 s apart. -/
def run24Frames : List Frame :=
  [{ ts := 0, pcm := 1 },
   { ts := 1/10, pcm := 0 }, { ts := 2/10, pcm := 0 }, { ts := 3/10, pcm := 0 },
   { ts := 4/10, pcm := 0 }, { ts := 5/10, pcm := 0 }, { ts := 6/10, pcm := 0 },
   { ts := 7/10, pcm := 0 }, { ts := 8/10, pcm := 0 }, { ts := 9/10, pcm := 0 },
   { ts := 10/10, pcm := 0 }, { ts := 11/10, pcm := 0 }, { ts := 12/10, pcm := 0 },
   { ts := 13/10, pcm := 0 }, { ts := 14/10, pcm := 0 }, { ts := 15/10, pcm := 0 },
   { ts := 16/10, pcm := 0 }, { ts := 17/10, pcm := 0 }, { ts := 18/10, pcm := 0 },
   { ts := 19/10, pcm := 0 }, { ts := 20/10, pcm := 0 }, { ts := 21/10, pcm := 0 },
   { ts := 22/10, pcm := 0 }, { ts := 23/10, pcm := 0 }]

/-- The 24th consecutive silence frame following `run24Frames`. -/
def run24LastFrame : Frame := { ts := 24/10, pcm := 0 }

/-- A backend whose `transcribe` always raises. -/
def failBackend : List Frame → Except Unit (String × ℚ) := fun _ => Except.error ()

/-- A configuration with a capacity-1 segment queue, for exercising the
queue-full path on concrete states. -/
def tinyCfg : SegConfig :=
  { block_duration_ms := 30
    min_speech_ms := 30
    max_silence_ms := 30
    segment_timeout_s := 100
    out_capacity := 1 }

theorem segRun_append (c : SegConfig) (vad : ℕ → Bool) (fs : List Frame) (f : Frame) :
    segRun c vad (fs ++ [f]) = segStep c vad (segRun c vad fs) f := by
  simp [segRun, List.foldl_append]

theorem max_silence_frames_pos (c : SegConfig) : 0 < c.max_silence_frames :=
  lt_of_lt_of_le Nat.zero_lt_one (le_max_left _ _)

theorem segStep_silence_emit (c : SegConfig) (vad : ℕ → Bool) (st : SegState) (f : Frame)
    (seg0 : AudioSegment) (hcur : st.cur = some seg0) (hsil : vad f.pcm = false)
    (hfire : c.max_silence_frames ≤ st.silence_frame_count + 1)
    (hlen : ((c.min_frames * c.block_duration_ms : ℕ) : ℚ) ≤
      (pyOr st.last_activity f.ts - seg0.start_time) * 1000) :
    segStep c vad st f =
      { cur := none
        speech_frame_count := 0
        silence_frame_count := 0
        last_activity := none
        out_queue := (putNowait c.out_capacity st.out_queue
          { start_time := seg0.start_time
            end_time := some (pyOr st.last_activity f.ts)
            samples := seg0.samples ++ [f] }).1
        pushed := st.pushed ++
          [{ start_time := seg0.start_time
             end_time := some (pyOr st.last_activity f.ts)
             samples := seg0.samples ++ [f] }]
        warnings := st.warnings + if (putNowait c.out_capacity st.out_queue
          { start_time := seg0.start_time
            end_time := some (pyOr st.last_activity f.ts)
            samples := seg0.samples ++ [f] }).2 then 1 else 0 } := by
  obtain ⟨scur, ssp, ssil, sla, sq, spd, sw⟩ := st
  dsimp only at hcur hfire hlen ⊢
  subst hcur
  simp only [segStep, newSilenceCount, newLastActivity, hsil, Bool.false_eq_true,
    if_false]
  dsimp only
  rw [if_pos hfire, if_pos hlen]

theorem segStep_silence_drop (c : SegConfig) (vad : ℕ → Bool) (st : SegState) (f : Frame)
    (seg0 : AudioSegment) (hcur : st.cur = some seg0) (hsil : vad f.pcm = false)
    (hfire : c.max_silence_frames ≤ st.silence_frame_count + 1)
    (hlen : ¬ ((c.min_frames * c.block_duration_ms : ℕ) : ℚ) ≤
      (pyOr st.last_activity f.ts - seg0.start_time) * 1000) :
    segStep c vad st f =
      { cur := none
        speech_frame_count := 0
        silence_frame_count := 0
        last_activity := none
        out_queue := st.out_queue
        pushed := st.pushed
        warnings := st.warnings } := by
  obtain ⟨scur, ssp, ssil, sla, sq, spd, sw⟩ := st
  dsimp only at hcur hfire hlen ⊢
  subst hcur
  simp only [segStep, newSilenceCount, newLastActivity, hsil, Bool.false_eq_true,
    if_false]
  dsimp only
  rw [if_pos hfire, if_neg hlen]

theorem segStep_timeout (c : SegConfig) (vad : ℕ → Bool) (st : SegState) (f : Frame)
    (seg0 : AudioSegment) (hcur : st.cur = some seg0)
    (hnofire : ¬ c.max_silence_frames ≤ newSilenceCount vad st f)
    (hto : c.segment_timeout_s < f.ts - seg0.start_time) :
    segStep c vad st f =
      { cur := none
        speech_frame_count := 0
        silence_frame_count := 0
        last_activity := none
        out_queue := (putNowait c.out_capacity st.out_queue
          { start_time := seg0.start_time
            end_time := some f.ts
            samples := seg0.samples ++ [f] }).1
        pushed := st.pushed ++
          [{ start_time := seg0.start_time
             end_time := some f.ts
             samples := seg0.samples ++ [f] }]
        warnings := st.warnings + if (putNowait c.out_capacity st.out_queue
          { start_time := seg0.start_time
            end_time := some f.ts
            samples := seg0.samples ++ [f] }).2 then 1 else 0 } := by
  obtain ⟨scur, ssp, ssil, sla, sq, spd, sw⟩ := st
  dsimp only [newSilenceCount] at hcur hnofire hto ⊢
  subst hcur
  simp only [segStep, newSilenceCount, newLastActivity]
  dsimp only
  rw [if_neg hnofire, if_pos hto]

theorem segStep_continue (c : SegConfig) (vad : ℕ → Bool) (st : SegState) (f : Frame)
    (seg0 : AudioSegment) (hcur : st.cur = some seg0)
    (hnofire : ¬ c.max_silence_frames ≤ newSilenceCount vad st f)
    (hnoto : ¬ c.segment_timeout_s < f.ts - seg0.start_time) :
    segStep c vad st f =
      { st with
        cur := some { seg0 with samples := seg0.samples ++ [f] }
        speech_frame_count :=
          if vad f.pcm then st.speech_frame_count + 1 else st.speech_frame_count
        silence_frame_count := newSilenceCount vad st f
        last_activity := newLastActivity vad st f } := by
  obtain ⟨scur, ssp, ssil, sla, sq, spd, sw⟩ := st
  dsimp only [newSilenceCount, newLastActivity] at hcur hnofire hnoto ⊢
  subst hcur
  simp only [segStep, newSilenceCount, newLastActivity]
  dsimp only
  rw [if_neg hnofire, if_neg hnoto]

theorem segStep_idle_speech (c : SegConfig) (vad : ℕ → Bool) (st : SegState) (f : Frame)
    (hcur : st.cur = none) (hsp : vad f.pcm = true) :
    segStep c vad st f =
      { st with
        cur := some { start_time := f.ts, end_time := none, samples := [f] }
        speech_frame_count := 1
        silence_frame_count := 0
        last_activity := some f.ts } := by
  obtain ⟨scur, ssp, ssil, sla, sq, spd, sw⟩ := st
  dsimp only at hcur ⊢
  subst hcur
  simp only [segStep, hsp, if_true]

theorem segStep_idle_silence (c : SegConfig) (vad : ℕ → Bool) (st : SegState) (f : Frame)
    (hcur : st.cur = none) (hsil : vad f.pcm = false) :
    segStep c vad st f = st := by
  obtain ⟨scur, ssp, ssil, sla, sq, spd, sw⟩ := st
  dsimp only at hcur ⊢
  subst hcur
  simp only [segStep, hsil, Bool.false_eq_true, if_false]

theorem trailingSilence_append (vad : ℕ → Bool) (fs : List Frame) (f : Frame) :
    trailingSilence vad (fs ++ [f]) =
      if vad f.pcm then 0 else trailingSilence vad fs + 1 := by
  simp [trailingSilence, List.foldl_append]

theorem segRun_invBasic (c : SegConfig) (vad : ℕ → Bool) (frames : List Frame) :
    InvBasic c vad frames (segRun c vad frames) := by
  induction frames using List.reverseRecOn with
  | nil =>
      intro seg h
      simp [segRun, initSegState, List.foldl_nil] at h
  | append_singleton fs f ih =>
      intro seg h
      rw [segRun_append] at h ⊢
      rcases hcur : (segRun c vad fs).cur with _ | seg0
      · by_cases hsp : vad f.pcm = true
        · rw [segStep_idle_speech c vad _ f hcur hsp] at h ⊢
          dsimp only at h ⊢
          rcases Option.some.injEq .. ▸ h with rfl
          refine ⟨?_, ?_, rfl, ⟨f, [], rfl, hsp, rfl⟩, ⟨f.ts, rfl, f, ?_, rfl⟩, f, ?_, rfl⟩
          · rw [trailingSilence_append, if_pos hsp]
          · exact max_silence_frames_pos c
          · simp
          · simp
        · rw [segStep_idle_silence c vad _ f hcur (Bool.not_eq_true _ ▸ hsp)] at h
          rw [hcur] at h
          exact absurd h (by simp)
      · by_cases hfire : c.max_silence_frames ≤ newSilenceCount vad (segRun c vad fs) f
        · have hsil : vad f.pcm = false := by
            by_contra hb
            rw [Bool.not_eq_false] at hb
            rw [newSilenceCount, if_pos hb] at hfire
            exact absurd (Nat.le_antisymm hfire (Nat.zero_le _)).symm
              (Nat.ne_of_lt (max_silence_frames_pos c))
          rw [newSilenceCount, if_neg (by simp [hsil])] at hfire
          by_cases hlen : ((c.min_frames * c.block_duration_ms : ℕ) : ℚ) ≤
              (pyOr (segRun c vad fs).last_activity f.ts - seg0.start_time) * 1000
          · rw [segStep_silence_emit c vad _ f seg0 hcur hsil hfire hlen] at h
            exact absurd h (by simp)
          · rw [segStep_silence_drop c vad _ f seg0 hcur hsil hfire hlen] at h
            exact absurd h (by simp)
        · by_cases hto : c.segment_timeout_s < f.ts - seg0.start_time
          · rw [segStep_timeout c vad _ f seg0 hcur hfire hto] at h
            exact absurd h (by simp)
          · rw [segStep_continue c vad _ f seg0 hcur hfire hto] at h ⊢
            dsimp only at h ⊢
            rcases Option.some.injEq .. ▸ h with rfl
            obtain ⟨h1, _, h3, ⟨f0, r, hsam, hf0, hts⟩, ⟨la, hla, g, hg, hgts⟩, g2, hg2, hg2ts⟩ :=
              ih seg0 hcur
            refine ⟨?_, Nat.lt_of_not_le hfire, h3, ⟨f0, r ++ [f], by rw [hsam]; rfl, hf0, hts⟩,
              ?_, g2, List.mem_append_left _ hg2, hg2ts⟩
            · rw [trailingSilence_append, newSilenceCount, h1]
            · rw [newLastActivity]
              by_cases hsp : vad f.pcm = true
              · exact ⟨f.ts, by rw [if_pos hsp], f, List.mem_append_right _ (by simp), rfl⟩
              · exact ⟨la, by rw [if_neg hsp]; exact hla, g, List.mem_append_left _ hg, hgts⟩

theorem segRun_invSorted (c : SegConfig) (vad : ℕ → Bool) (frames : List Frame)
    (hmono : tsMono frames) : InvSorted (segRun c vad frames) := by
  induction frames using List.reverseRecOn with
  | nil =>
      constructor
      · intro seg h
        simp [segRun, initSegState, List.foldl_nil] at h
      · intro s hs
        simp [segRun, initSegState, List.foldl_nil] at hs
  | append_singleton fs f ih =>
      rw [tsMono, List.pairwise_append] at hmono
      obtain ⟨hfs, -, hle⟩ := hmono
      obtain ⟨ihla, ihpush⟩ := ih hfs
      have hle' : ∀ g ∈ fs, g.ts ≤ f.ts := fun g hg => hle g hg f (by simp)
      rw [segRun_append]
      rcases hcur : (segRun c vad fs).cur with _ | seg0
      · by_cases hsp : vad f.pcm = true
        · rw [segStep_idle_speech c vad _ f hcur hsp]
          refine ⟨?_, ?_⟩
          · intro seg h
            dsimp only at h ⊢
            rcases Option.some.injEq .. ▸ h with rfl
            exact ⟨f.ts, rfl, le_refl _⟩
          · intro s hs
            exact ihpush s hs
        · rw [segStep_idle_silence c vad _ f hcur (Bool.not_eq_true _ ▸ hsp)]
          exact ⟨ihla, ihpush⟩
      · have hstart : seg0.start_time ≤ f.ts := by
          obtain ⟨-, -, -, -, -, g2, hg2, hg2ts⟩ := segRun_invBasic c vad fs seg0 hcur
          rw [hg2ts]
          exact hle' g2 hg2
        obtain ⟨la, hla, hsla⟩ := ihla seg0 hcur
        have hendgood : seg0.start_time ≤ pyOr (segRun c vad fs).last_activity f.ts := by
          rw [hla, pyOr]
          by_cases h0 : la = 0
          · rw [if_pos h0]
            exact hstart
          · rw [if_neg h0]
            exact hsla
        by_cases hfire : c.max_silence_frames ≤ newSilenceCount vad (segRun c vad fs) f
        · have hsil : vad f.pcm = false := by
            by_contra hb
            rw [Bool.not_eq_false] at hb
            rw [newSilenceCount, if_pos hb] at hfire
            exact absurd (Nat.le_antisymm hfire (Nat.zero_le _)).symm
              (Nat.ne_of_lt (max_silence_frames_pos c))
          rw [newSilenceCount, if_neg (by simp [hsil])] at hfire
          by_cases hlen : ((c.min_frames * c.block_duration_ms : ℕ) : ℚ) ≤
              (pyOr (segRun c vad fs).last_activity f.ts - seg0.start_time) * 1000
          · rw [segStep_silence_emit c vad _ f seg0 hcur hsil hfire hlen]
            refine ⟨?_, ?_⟩
            · intro seg h
              exact absurd h (by simp)
            · intro s hs
              dsimp only at hs
              rcases List.mem_append.mp hs with hs | hs
              · exact ihpush s hs
              · rcases List.mem_singleton.mp hs with rfl
                exact ⟨by simp, pyOr (segRun c vad fs).last_activity f.ts, rfl, hendgood⟩
          · rw [segStep_silence_drop c vad _ f seg0 hcur hsil hfire hlen]
            exact ⟨fun seg h => absurd h (by simp), fun s hs => ihpush s hs⟩
        · by_cases hto : c.segment_timeout_s < f.ts - seg0.start_time
          · rw [segStep_timeout c vad _ f seg0 hcur hfire hto]
            refine ⟨fun seg h => absurd h (by simp), ?_⟩
            intro s hs
            dsimp only at hs
            rcases List.mem_append.mp hs with hs | hs
            · exact ihpush s hs
            · rcases List.mem_singleton.mp hs with rfl
              exact ⟨by simp, f.ts, rfl, hstart⟩
          · rw [segStep_continue c vad _ f seg0 hcur hfire hto]
            refine ⟨?_, fun s hs => ihpush s hs⟩
            intro seg h
            dsimp only at h ⊢
            rcases Option.some.injEq .. ▸ h with rfl
            rw [newLastActivity]
            by_cases hsp : vad f.pcm = true
            · exact ⟨f.ts, by rw [if_pos hsp], hstart⟩
            · exact ⟨la, by rw [if_neg hsp]; exact hla, hsla⟩

theorem segStep_silence_close (c : SegConfig) (vad : ℕ → Bool) (st : SegState) (f : Frame)
    (hfire : silenceEndCond c vad st f = true) :
    (segStep c vad st f).cur = none ∧
    (segStep c vad st f).pushed = st.pushed ++
      (if ((c.min_frames * c.block_duration_ms : ℕ) : ℚ) ≤ silenceSpanMs vad st f
       then (st.cur.map (fun seg0 =>
         { start_time := seg0.start_time
           end_time := some (silenceEndTime vad st f)
           samples := seg0.samples ++ [f] })).toList
       else []) := by
  rw [silenceEndCond, Bool.and_eq_true, decide_eq_true_eq] at hfire
  obtain ⟨hsome, hge⟩ := hfire
  rcases hcur : st.cur with _ | seg0
  · rw [hcur] at hsome
    simp at hsome
  · have hsil : vad f.pcm = false := by
      by_contra hb
      rw [Bool.not_eq_false] at hb
      rw [newSilenceCount, if_pos hb] at hge
      exact absurd (Nat.le_antisymm hge (Nat.zero_le _)).symm
        (Nat.ne_of_lt (max_silence_frames_pos c))
    rw [newSilenceCount, if_neg (by simp [hsil])] at hge
    have hse : silenceEndTime vad st f = pyOr st.last_activity f.ts := by
      rw [silenceEndTime, newLastActivity, if_neg (by simp [hsil])]
    have hsp : silenceSpanMs vad st f =
        (pyOr st.last_activity f.ts - seg0.start_time) * 1000 := by
      rw [silenceSpanMs, hcur, hse]
    by_cases hlen : ((c.min_frames * c.block_duration_ms : ℕ) : ℚ) ≤
        (pyOr st.last_activity f.ts - seg0.start_time) * 1000
    · rw [segStep_silence_emit c vad st f seg0 hcur hsil hge hlen]
      refine ⟨rfl, ?_⟩
      simp only [hsp, hcur, hse, if_pos hlen, Option.map_some', Option.toList_some]
    · rw [segStep_silence_drop c vad st f seg0 hcur hsil hge hlen]
      refine ⟨rfl, ?_⟩
      simp only [hsp, hcur, hse, if_neg hlen, List.append_nil]

/-- C1: the claim's reading — a silence-ended segment is emitted iff its
span in ms is at least `min_speech_ms` — is false for the code: under the
default configuration (`min_speech_ms = 250`, `frame = 30 ms`), the stream
`shortSpanFrames ++ [shortSpanLastFrame]` silence-ends a segment of span
260 ms ≥ 250 ms, yet nothing is emitted, because the code compares the
span against `min_frames * block_duration_ms = 270` ms. -/
theorem silence_end_min_speech_claim_false :
    ¬ emitsIffAtLeastMinSpeechMs defaultCfg vadNonzero := by
  intro hcl
  have h := (hcl shortSpanFrames shortSpanLastFrame (by
    norm_num [segRun, segStep, initSegState, newSilenceCount, newLastActivity, pyOr,
      silenceEndCond, putNowait, SegConfig.min_frames, SegConfig.max_silence_frames,
      defaultCfg, vadNonzero, shortSpanFrames, shortSpanLastFrame,
      List.foldl_cons, List.foldl_nil])).mpr (by
    norm_num [segRun, segStep, initSegState, newSilenceCount, newLastActivity, pyOr,
      silenceSpanMs, silenceEndTime, putNowait, SegConfig.min_frames,
      SegConfig.max_silence_frames, defaultCfg, vadNonzero, shortSpanFrames,
      shortSpanLastFrame, List.foldl_cons, List.foldl_nil])
  norm_num [segRun, segStep, initSegState, newSilenceCount, newLastActivity, pyOr,
    putNowait, SegConfig.min_frames, SegConfig.max_silence_frames, defaultCfg,
    vadNonzero, shortSpanFrames, shortSpanLastFrame,
    List.foldl_cons, List.foldl_nil] at h

/-- C1 (amended): whenever the silence-run condition ends a segment, the
segment — closed at `last_activity or ts` — is handed to the segment
queue if and only if its span in ms is at least
`min_frames * block_duration_ms` (that is, `min_speech_ms` rounded up to
a whole number of frames); a silence-ended segment with a shorter span is
discarded without being emitted. -/
theorem silence_end_emits_iff_frame_threshold (c : SegConfig) (vad : ℕ → Bool)
    (st : SegState) (f : Frame) (hfire : silenceEndCond c vad st f = true) :
    (segStep c vad st f).cur = none ∧
    (segStep c vad st f).pushed = st.pushed ++
      (if ((c.min_frames * c.block_duration_ms : ℕ) : ℚ) ≤ silenceSpanMs vad st f
       then (st.cur.map (fun seg0 =>
         { start_time := seg0.start_time
           end_time := some (silenceEndTime vad st f)
           samples := seg0.samples ++ [f] })).toList
       else []) :=
  segStep_silence_close c vad st f hfire

theorem silence_end_emits_iff_frame_threshold_witness :
    silenceEndCond demoCfg vadNonzero (segRun demoCfg vadNonzero demoOpen) demoSilence = true ∧
    ((segStep demoCfg vadNonzero (segRun demoCfg vadNonzero demoOpen) demoSilence).cur = none ∧
     (segStep demoCfg vadNonzero (segRun demoCfg vadNonzero demoOpen) demoSilence).pushed =
       (segRun demoCfg vadNonzero demoOpen).pushed ++
       (if ((demoCfg.min_frames * demoCfg.block_duration_ms : ℕ) : ℚ) ≤
           silenceSpanMs vadNonzero (segRun demoCfg vadNonzero demoOpen) demoSilence
        then ((segRun demoCfg vadNonzero demoOpen).cur.map (fun seg0 =>
          { start_time := seg0.start_time
            end_time := some (silenceEndTime vadNonzero
              (segRun demoCfg vadNonzero demoOpen) demoSilence)
            samples := seg0.samples ++ [demoSilence] })).toList
        else [])) :=
  ⟨by
    norm_num [segRun, segStep, initSegState, newSilenceCount, newLastActivity, pyOr,
      silenceEndCond, putNowait, SegConfig.min_frames, SegConfig.max_silence_frames,
      demoCfg, vadNonzero, demoOpen, demoSilence, List.foldl_cons, List.foldl_nil],
   silence_end_emits_iff_frame_threshold demoCfg vadNonzero
     (segRun demoCfg vadNonzero demoOpen) demoSilence (by
    norm_num [segRun, segStep, initSegState, newSilenceCount, newLastActivity, pyOr,
      silenceEndCond, putNowait, SegConfig.min_frames, SegConfig.max_silence_frames,
      demoCfg, vadNonzero, demoOpen, demoSilence, List.foldl_cons, List.foldl_nil])⟩

/-- C3: when a segment is open and the silence-run condition does not
fire on the incoming frame, but the frame's timestamp exceeds
`start_time + segment_timeout_s`, the segment is closed with
`end_time = ts` and emitted unconditionally — no `min_speech_ms` filter
and no condition on the frame's speech/silence classification — and the
segmenter resets to idle. -/
theorem timeout_flush_unconditional (c : SegConfig) (vad : ℕ → Bool) (st : SegState)
    (f : Frame) (seg0 : AudioSegment) (hcur : st.cur = some seg0)
    (hnofire : silenceEndCond c vad st f = false)
    (hto : c.segment_timeout_s < f.ts - seg0.start_time) :
    (segStep c vad st f).cur = none ∧
    (segStep c vad st f).pushed = st.pushed ++
      [{ start_time := seg0.start_time
         end_time := some f.ts
         samples := seg0.samples ++ [f] }] := by
  rw [silenceEndCond, hcur] at hnofire
  simp only [Option.isSome_some, Bool.true_and, decide_eq_false_iff_not] at hnofire
  rw [segStep_timeout c vad st f seg0 hcur hnofire hto]
  exact ⟨rfl, rfl⟩

theorem timeout_flush_unconditional_witness :
    (segRun demoCfg vadNonzero demoOpen).cur =
      some { start_time := 1, end_time := none, samples := demoOpen } ∧
    silenceEndCond demoCfg vadNonzero (segRun demoCfg vadNonzero demoOpen)
      { ts := 200, pcm := 9 } = false ∧
    demoCfg.segment_timeout_s < (200 : ℚ) - 1 ∧
    ((segStep demoCfg vadNonzero (segRun demoCfg vadNonzero demoOpen)
        { ts := 200, pcm := 9 }).cur = none ∧
     (segStep demoCfg vadNonzero (segRun demoCfg vadNonzero demoOpen)
        { ts := 200, pcm := 9 }).pushed =
       (segRun demoCfg vadNonzero demoOpen).pushed ++
       [{ start_time := 1
          end_time := some 200
          samples := demoOpen ++ [{ ts := 200, pcm := 9 }] }]) :=
  ⟨by
    norm_num [segRun, segStep, initSegState, newSilenceCount, newLastActivity, pyOr,
      putNowait, SegConfig.min_frames, SegConfig.max_silence_frames, demoCfg,
      vadNonzero, demoOpen, List.foldl_cons, List.foldl_nil],
   by
    norm_num [segRun, segStep, initSegState, newSilenceCount, newLastActivity, pyOr,
      silenceEndCond, putNowait, SegConfig.min_frames, SegConfig.max_silence_frames,
      demoCfg, vadNonzero, demoOpen, List.foldl_cons, List.foldl_nil],
   by norm_num [demoCfg],
   timeout_flush_unconditional demoCfg vadNonzero (segRun demoCfg vadNonzero demoOpen)
     { ts := 200, pcm := 9 }
     { start_time := 1, end_time := none, samples := demoOpen }
     (by
      norm_num [segRun, segStep, initSegState, newSilenceCount, newLastActivity, pyOr,
        putNowait, SegConfig.min_frames, SegConfig.max_silence_frames, demoCfg,
        vadNonzero, demoOpen, List.foldl_cons, List.foldl_nil])
     (by
      norm_num [segRun, segStep, initSegState, newSilenceCount, newLastActivity, pyOr,
        silenceEndCond, putNowait, SegConfig.min_frames, SegConfig.max_silence_frames,
        demoCfg, vadNonzero, demoOpen, List.foldl_cons, List.foldl_nil])
     (by norm_num [demoCfg])⟩

/-- C5: on a frame where both the silence-run condition and the timeout
condition hold, the step is the silence-run close — the segment ends at
`last_activity or ts` (not at the frame's timestamp) and the
`min_frames * block_duration_ms` filter is applied — not the forced
flush. -/
theorem silence_end_checked_before_timeout (c : SegConfig) (vad : ℕ → Bool)
    (st : SegState) (f : Frame) (hfire : silenceEndCond c vad st f = true)
    (hto : ∀ seg0, st.cur = some seg0 → c.segment_timeout_s < f.ts - seg0.start_time) :
    (segStep c vad st f).cur = none ∧
    (segStep c vad st f).pushed = st.pushed ++
      (if ((c.min_frames * c.block_duration_ms : ℕ) : ℚ) ≤ silenceSpanMs vad st f
       then (st.cur.map (fun seg0 =>
         { start_time := seg0.start_time
           end_time := some (silenceEndTime vad st f)
           samples := seg0.samples ++ [f] })).toList
       else []) :=
  segStep_silence_close c vad st f hfire

theorem silence_end_checked_before_timeout_witness :
    silenceEndCond demoCfg vadNonzero (segRun demoCfg vadNonzero demoOpen)
      { ts := 200, pcm := 0 } = true ∧
    (∀ seg0, (segRun demoCfg vadNonzero demoOpen).cur = some seg0 →
      demoCfg.segment_timeout_s < (200 : ℚ) - seg0.start_time) ∧
    ((segStep demoCfg vadNonzero (segRun demoCfg vadNonzero demoOpen)
        { ts := 200, pcm := 0 }).cur = none ∧
     (segStep demoCfg vadNonzero (segRun demoCfg vadNonzero demoOpen)
        { ts := 200, pcm := 0 }).pushed =
       (segRun demoCfg vadNonzero demoOpen).pushed ++
       (if ((demoCfg.min_frames * demoCfg.block_duration_ms : ℕ) : ℚ) ≤
           silenceSpanMs vadNonzero (segRun demoCfg vadNonzero demoOpen)
             { ts := 200, pcm := 0 }
        then ((segRun demoCfg vadNonzero demoOpen).cur.map (fun seg0 =>
          { start_time := seg0.start_time
            end_time := some (silenceEndTime vadNonzero
              (segRun demoCfg vadNonzero demoOpen) { ts := 200, pcm := 0 })
            samples := seg0.samples ++ [{ ts := 200, pcm := 0 }] })).toList
        else [])) :=
  ⟨by
    norm_num [segRun, segStep, initSegState, newSilenceCount, newLastActivity, pyOr,
      silenceEndCond, putNowait, SegConfig.min_frames, SegConfig.max_silence_frames,
      demoCfg, vadNonzero, demoOpen, List.foldl_cons, List.foldl_nil],
   by
    intro seg0 h
    norm_num [segRun, segStep, initSegState, newSilenceCount, newLastActivity, pyOr,
      putNowait, SegConfig.min_frames, SegConfig.max_silence_frames, demoCfg,
      vadNonzero, demoOpen, List.foldl_cons, List.foldl_nil] at h
    rw [← h]
    norm_num [demoCfg],
   silence_end_checked_before_timeout demoCfg vadNonzero
     (segRun demoCfg vadNonzero demoOpen) { ts := 200, pcm := 0 }
     (by
      norm_num [segRun, segStep, initSegState, newSilenceCount, newLastActivity, pyOr,
        silenceEndCond, putNowait, SegConfig.min_frames, SegConfig.max_silence_frames,
        demoCfg, vadNonzero, demoOpen, List.foldl_cons, List.foldl_nil])
     (by
      intro seg0 h
      norm_num [segRun, segStep, initSegState, newSilenceCount, newLastActivity, pyOr,
        putNowait, SegConfig.min_frames, SegConfig.max_silence_frames, demoCfg,
        vadNonzero, demoOpen, List.foldl_cons, List.foldl_nil] at h
      rw [← h]
      norm_num [demoCfg])⟩

/-- C4: with `max_silence_ms = 700` and `frame_duration_ms = 30` (the
defaults, `max_silence_frames = ⌈700/30⌉ = 24`), an open segment's
silence-run can never already exceed 23 consecutive silence frames; on an
incoming silence frame the segment is closed exactly when that frame is
the 24th consecutive silence frame, and for runs shorter than 24 (and no
timeout) the segment stays open. -/
theorem silence_close_exactly_at_24 (vad : ℕ → Bool) (frames : List Frame) (f : Frame)
    (seg0 : AudioSegment) (hcur : (segRun defaultCfg vad frames).cur = some seg0)
    (hsil : vad f.pcm = false) :
    trailingSilence vad frames < 24 ∧
    (trailingSilence vad frames + 1 = 24 →
      silenceEndCond defaultCfg vad (segRun defaultCfg vad frames) f = true ∧
      (segRun defaultCfg vad (frames ++ [f])).cur = none) ∧
    (trailingSilence vad frames + 1 < 24 →
      ¬ defaultCfg.segment_timeout_s < f.ts - seg0.start_time →
      silenceEndCond defaultCfg vad (segRun defaultCfg vad frames) f = false ∧
      (segRun defaultCfg vad (frames ++ [f])).cur =
        some { seg0 with samples := seg0.samples ++ [f] }) := by
  obtain ⟨h1, h2, -, -, -, -⟩ := segRun_invBasic defaultCfg vad frames seg0 hcur
  have hmax : defaultCfg.max_silence_frames = 24 := by
    norm_num [defaultCfg, SegConfig.max_silence_frames]
  have hnsc : newSilenceCount vad (segRun defaultCfg vad frames) f =
      trailingSilence vad frames + 1 := by
    rw [newSilenceCount, if_neg (by simp [hsil]), h1]
  refine ⟨h1 ▸ (hmax ▸ h2), ?_, ?_⟩
  · intro h24
    have hfire : silenceEndCond defaultCfg vad (segRun defaultCfg vad frames) f = true := by
      rw [silenceEndCond, hcur]
      simp only [Option.isSome_some, Bool.true_and, decide_eq_true_eq, hnsc, h24, hmax,
        le_refl]
    exact ⟨hfire, by rw [segRun_append]; exact (segStep_silence_close _ _ _ _ hfire).1⟩
  · intro hlt hnoto
    have hnofire : ¬ defaultCfg.max_silence_frames ≤
        newSilenceCount vad (segRun defaultCfg vad frames) f := by
      rw [hnsc, hmax]
      omega
    refine ⟨?_, ?_⟩
    · rw [silenceEndCond, hcur]
      simp only [Option.isSome_some, Bool.true_and, decide_eq_false_iff_not]
      exact hnofire
    · rw [segRun_append, segStep_continue defaultCfg vad _ f seg0 hcur hnofire hnoto]

theorem silence_close_exactly_at_24_witness :
    (segRun defaultCfg vadNonzero run24Frames).cur =
      some { start_time := 0, end_time := none, samples := run24Frames } ∧
    vadNonzero run24LastFrame.pcm = false ∧
    trailingSilence vadNonzero run24Frames + 1 = 24 ∧
    silenceEndCond defaultCfg vadNonzero (segRun defaultCfg vadNonzero run24Frames)
      run24LastFrame = true ∧
    (segRun defaultCfg vadNonzero (run24Frames ++ [run24LastFrame])).cur = none := by
  have hcur : (segRun defaultCfg vadNonzero run24Frames).cur =
      some { start_time := 0, end_time := none, samples := run24Frames } := by
    norm_num [segRun, segStep, initSegState, newSilenceCount, newLastActivity, pyOr,
      putNowait, SegConfig.min_frames, SegConfig.max_silence_frames, defaultCfg,
      vadNonzero, run24Frames, List.foldl_cons, List.foldl_nil]
  have h24 : trailingSilence vadNonzero run24Frames + 1 = 24 := by
    norm_num [trailingSilence, vadNonzero, run24Frames, List.foldl_cons, List.foldl_nil]
  have h := silence_close_exactly_at_24 vadNonzero run24Frames run24LastFrame
    { start_time := 0, end_time := none, samples := run24Frames } hcur rfl
  exact ⟨hcur, rfl, h24, (h.2.1 h24).1, (h.2.1 h24).2⟩

/-- C6: in the idle state a silence frame is discarded without any state
change, a segment is opened only by a speech frame (whose timestamp
becomes `start_time` and which becomes the first stored frame), and every
open segment's first stored frame is a speech frame with the segment's
`start_time` as its timestamp. -/
theorem segment_opens_only_on_speech (c : SegConfig) (vad : ℕ → Bool)
    (frames : List Frame) (f : Frame) :
    ((segRun c vad frames).cur = none → vad f.pcm = false →
      segStep c vad (segRun c vad frames) f = segRun c vad frames) ∧
    ((segRun c vad frames).cur = none → vad f.pcm = true →
      (segStep c vad (segRun c vad frames) f).cur =
        some { start_time := f.ts, end_time := none, samples := [f] }) ∧
    (∀ seg, (segRun c vad frames).cur = some seg →
      ∃ f0 r, seg.samples = f0 :: r ∧ vad f0.pcm = true ∧ f0.ts = seg.start_time) := by
  refine ⟨?_, ?_, ?_⟩
  · intro hcur hsil
    exact segStep_idle_silence c vad _ f hcur hsil
  · intro hcur hsp
    rw [segStep_idle_speech c vad _ f hcur hsp]
  · intro seg hseg
    obtain ⟨-, -, -, hhead, -, -⟩ := segRun_invBasic c vad frames seg hseg
    exact hhead

theorem segment_opens_only_on_speech_witness :
    (segRun demoCfg vadNonzero []).cur = none ∧
    vadNonzero 0 = false ∧
    segStep demoCfg vadNonzero (segRun demoCfg vadNonzero []) { ts := 7, pcm := 0 } =
      segRun demoCfg vadNonzero [] :=
  ⟨rfl, rfl,
   (segment_opens_only_on_speech demoCfg vadNonzero [] { ts := 7, pcm := 0 }).1 rfl rfl⟩

/-- C7: under nondecreasing frame timestamps, every segment the segmenter
hands to the segment queue (silence-ended or force-flushed) has a
non-empty frame list and an assigned `end_time` with
`start_time ≤ end_time`. -/
theorem emitted_segments_wellformed (c : SegConfig) (vad : ℕ → Bool)
    (frames : List Frame) (hmono : tsMono frames) :
    ∀ s ∈ (segRun c vad frames).pushed,
      s.samples ≠ [] ∧ ∃ e, s.end_time = some e ∧ s.start_time ≤ e :=
  fun s hs => (segRun_invSorted c vad frames hmono).2 s hs

theorem emitted_segments_wellformed_witness :
    tsMono demoEmit ∧
    ∀ s ∈ (segRun demoCfg vadNonzero demoEmit).pushed,
      s.samples ≠ [] ∧ ∃ e, s.end_time = some e ∧ s.start_time ≤ e :=
  ⟨by norm_num [tsMono, demoEmit, demoOpen, demoSilence, List.pairwise_cons],
   emitted_segments_wellformed demoCfg vadNonzero demoEmit
     (by norm_num [tsMono, demoEmit, demoOpen, demoSilence, List.pairwise_cons])⟩

/-- C2: if the backend raises for a popped segment, or returns empty
text, the worker writes no subtitle entry, calls no caption sink, and
leaves its sequence counter unchanged; and a backend that always raises
leaves the worker's output state at its initial value (zero writes, zero
caption calls) over any stream of segments, the loop running on. -/
theorem backend_failure_yields_no_output
    (backend : List Frame → Except Unit (String × ℚ)) (st : WorkerState)
    (seg : AudioSegment)
    (h : backend seg.samples = Except.error () ∨
      ∃ conf, backend seg.samples = Except.ok ("", conf)) :
    workerStep backend st seg = st ∧
    ∀ segs : List AudioSegment, workerRun failBackend segs = initWorkerState := by
  have hid : ∀ (st' : WorkerState) (seg' : AudioSegment),
      workerStep failBackend st' seg' = st' := by
    intro st' seg'
    simp [workerStep, failBackend]
  constructor
  · rcases h with h | ⟨conf, h⟩
    · simp [workerStep, h]
    · simp [workerStep, h]
  · intro segs
    rw [workerRun]
    induction segs with
    | nil => rfl
    | cons s rest ih => rw [List.foldl_cons, hid]; exact ih

theorem backend_failure_yields_no_output_witness :
    (failBackend (AudioSegment.mk 0 none []).samples = Except.error () ∨
      ∃ conf, failBackend (AudioSegment.mk 0 none []).samples = Except.ok ("", conf)) ∧
    workerStep failBackend initWorkerState (AudioSegment.mk 0 none []) =
      initWorkerState ∧
    ∀ segs : List AudioSegment, workerRun failBackend segs = initWorkerState :=
  ⟨Or.inl rfl,
   (backend_failure_yields_no_output failBackend initWorkerState
      (AudioSegment.mk 0 none []) (Or.inl rfl)).1,
   (backend_failure_yields_no_output failBackend initWorkerState
      (AudioSegment.mk 0 none []) (Or.inl rfl)).2⟩

/-- C8: pushing onto a full bounded channel — the audio callback pushing a
frame, or the segmenter pushing a segment — drops the new item with a
warning, returning normally with the channel contents unchanged; in the
segmenter the only state change beyond the normal transition is the
warning count (one warning per attempted push). -/
theorem full_queue_push_drops_and_warns (capF : ℕ) (qF : List Frame) (fr : Frame)
    (c : SegConfig) (vad : ℕ → Bool) (st : SegState) (g : Frame)
    (hF : capF ≤ qF.length) (hS : c.out_capacity ≤ st.out_queue.length) :
    callbackPush capF qF fr = (qF, true) ∧
    (segStep c vad st g).out_queue = st.out_queue ∧
    (segStep c vad st g).warnings =
      st.warnings + ((segStep c vad st g).pushed.length - st.pushed.length) := by
  have hput : ∀ x : AudioSegment,
      putNowait c.out_capacity st.out_queue x = (st.out_queue, true) := by
    intro x
    rw [putNowait, if_neg (Nat.not_lt.mpr hS)]
  refine ⟨by rw [callbackPush, putNowait, if_neg (Nat.not_lt.mpr hF)], ?_⟩
  rcases hcur : st.cur with _ | seg0
  · by_cases hsp : vad g.pcm = true
    · rw [segStep_idle_speech c vad st g hcur hsp]
      simp
    · rw [segStep_idle_silence c vad st g hcur (Bool.not_eq_true _ ▸ hsp)]
      simp
  · by_cases hfire : c.max_silence_frames ≤ newSilenceCount vad st g
    · have hsil : vad g.pcm = false := by
        by_contra hb
        rw [Bool.not_eq_false] at hb
        rw [newSilenceCount, if_pos hb] at hfire
        exact absurd (Nat.le_antisymm hfire (Nat.zero_le _)).symm
          (Nat.ne_of_lt (max_silence_frames_pos c))
      rw [newSilenceCount, if_neg (by simp [hsil])] at hfire
      by_cases hlen : ((c.min_frames * c.block_duration_ms : ℕ) : ℚ) ≤
          (pyOr st.last_activity g.ts - seg0.start_time) * 1000
      · rw [segStep_silence_emit c vad st g seg0 hcur hsil hfire hlen]
        dsimp only
        rw [hput]
        simp
      · rw [segStep_silence_drop c vad st g seg0 hcur hsil hfire hlen]
        simp
    · by_cases hto : c.segment_timeout_s < g.ts - seg0.start_time
      · rw [segStep_timeout c vad st g seg0 hcur hfire hto]
        dsimp only
        rw [hput]
        simp
      · rw [segStep_continue c vad st g seg0 hcur hfire hto]
        simp

theorem full_queue_push_drops_and_warns_witness :
    (1 : ℕ) ≤ [Frame.mk 0 0].length ∧
    tinyCfg.out_capacity ≤
      ({ initSegState with out_queue := [AudioSegment.mk 0 none []] } :
        SegState).out_queue.length ∧
    callbackPush 1 [Frame.mk 0 0] (Frame.mk 5 1) = ([Frame.mk 0 0], true) ∧
    (segStep tinyCfg vadNonzero
      { initSegState with out_queue := [AudioSegment.mk 0 none []] }
      (Frame.mk 5 1)).out_queue = [AudioSegment.mk 0 none []] := by
  have h := full_queue_push_drops_and_warns 1 [Frame.mk 0 0] (Frame.mk 5 1)
    tinyCfg vadNonzero
    { initSegState with out_queue := [AudioSegment.mk 0 none []] }
    (Frame.mk 5 1) (by norm_num) (by norm_num [tinyCfg, initSegState])
  exact ⟨by norm_num, by norm_num [tinyCfg, initSegState], h.1, h.2.1⟩

theorem floor_ediv_pos (q : ℚ) (n : ℤ) (hn : 0 < n) :
    ⌊q⌋ / n = ⌊q / (n : ℚ)⌋ := by
  refine eq_of_forall_le_iff (fun z => ?_)
  rw [Int.le_ediv_iff_mul_le hn, Int.le_floor, Int.le_floor,
    le_div_iff₀ (by exact_mod_cast hn)]
  push_cast
  exact Iff.rfl

/-- C9: for every nonnegative timestamp (in seconds) the SRT timestamp
formatter produces `HH:MM:SS,mmm` with `mmm = ⌊ts*1000⌋ mod 1000`,
`SS = ⌊ts⌋ mod 60`, `MM = ⌊ts/60⌋ mod 60` and `HH = ⌊ts/3600⌋ mod 100`
(hours wrap modulo 100 in a two-digit field). -/
theorem formatTimestamp_eq_spec (ts : ℚ) (h : 0 ≤ ts) :
    formatTimestamp ts = specTimestamp ts := by
  have hms : pyInt (ts * 1000) = ⌊ts * 1000⌋ := if_pos (by positivity)
  have hs : ⌊ts * 1000⌋ / (1000 : ℤ) = ⌊ts⌋ := by
    rw [floor_ediv_pos (ts * 1000) 1000 (by norm_num)]
    congr 1
    push_cast
    ring
  have hm : ⌊ts * 1000⌋ / (1000 * 60 : ℤ) = ⌊ts / 60⌋ := by
    rw [floor_ediv_pos (ts * 1000) (1000 * 60) (by norm_num)]
    congr 1
    push_cast
    ring
  have hh : ⌊ts * 1000⌋ / (1000 * 60 * 60 : ℤ) = ⌊ts / 3600⌋ := by
    rw [floor_ediv_pos (ts * 1000) (1000 * 60 * 60) (by norm_num)]
    congr 1
    push_cast
    ring
  simp only [formatTimestamp, specTimestamp, hms, hs, hm, hh]

theorem formatTimestamp_eq_spec_witness :
    (0 : ℚ) ≤ 7322821/2000 ∧
    formatTimestamp (7322821/2000) = specTimestamp (7322821/2000) :=
  ⟨by norm_num, formatTimestamp_eq_spec (7322821/2000) (by norm_num)⟩

/-- C10: constructing the SRT writer truncates the file to empty —
whatever content was at the subtitle path before startup is destroyed —
while every subsequent `write_entry` appends its block after the existing
content. -/
theorem srt_init_truncates :
    (∀ prior : String, srtInitContent prior = "") ∧
    (∀ (content : String) (idx : ℕ) (s e : ℚ) (t : String),
      write_entry content idx s e t = content ++ srtBlock idx s e t) :=
  ⟨fun _ => rfl, fun _ _ _ _ _ => rfl⟩

end RealtimeSubtitle
